import Mathlib

/-!
Verification of `examples/title.py`: a script that lists the subdirectories
of the current working directory, sorts them, and prints a Markdown heading
line per directory, deriving the display title by splitting the directory
name on hyphens, title-casing each piece, and rejoining with spaces.

The embedding works on `List Char` (the character sequence of a Python
`str`).  The directory listing is modelled as a list of entries, each an
entry name paired with the result of `is_dir()`; a failed listing is
modelled as `none`.
-/

namespace TitleScript

/-- One entry yielded by `p.iterdir()`: its path string (`str(x)`, which for
children of `Path('.')` is just the entry name) and the value of
`x.is_dir()`. -/
structure Entry where
  name : List Char
  isDir : Bool
deriving DecidableEq

/-- Code-point comparison of two characters, as Python compares the
characters of a `str`. -/
def charLt (a b : Char) : Bool := a.val.toNat < b.val.toNat

/-- Lexicographic less-or-equal on strings by code points: Python's `<=` on
`str`, which is the order `dirs.sort()` uses (sorting single-component
relative `Path` objects compares their path strings). -/
def strLe : List Char → List Char → Bool
  | [], _ => true
  | _ :: _, [] => false
  | a :: as, b :: bs => charLt a b || (a == b && strLe as bs)

/-- Strict lexicographic order on strings by code points: Python's `<` on
`str`. -/
def strLt : List Char → List Char → Bool
  | [], [] => false
  | [], _ :: _ => true
  | _ :: _, [] => false
  | a :: as, b :: bs => charLt a b || (a == b && strLt as bs)

/-- Prepend a character to the first piece of a split result. -/
def consHead (c : Char) : List (List Char) → List (List Char)
  | [] => [[c]]
  | seg :: rest => (c :: seg) :: rest

/-- Python `str.split("-")`: cut the string at every hyphen, keeping empty
pieces that arise from leading, trailing or adjacent hyphens. -/
def splitHyphen : List Char → List (List Char)
  | [] => [[]]
  | c :: cs =>
    if c = '-' then [] :: splitHyphen cs
    else consHead c (splitHyphen cs)

/-- Worker for CPython's `str.title()` algorithm, with the Unicode "cased"
property and the case mappings restricted to ASCII: exactly the ASCII
letters are treated as cased, and `Char.toUpper` / `Char.toLower` move only
ASCII letters.  The Boolean is CPython's `previous_is_cased` flag: a cased
character following a cased character is lower-cased, any other cased
character is upper-cased (title-cased), and non-cased characters pass
through and clear the flag.  This agrees with CPython on every string that
contains no cased non-ASCII character — in particular on all ASCII strings,
and on strings with uncased non-ASCII characters such as CJK ideographs,
which CPython also passes through with the flag cleared — but diverges on
cased non-ASCII letters: CPython titles `éx` to `Éx`, while this
restriction leaves `é` unchanged and upper-cases the `x`. -/
def titleAux : Bool → List Char → List Char
  | _, [] => []
  | prevAlpha, c :: cs =>
    if c.isAlpha then
      (if prevAlpha then c.toLower else c.toUpper) :: titleAux true cs
    else
      c :: titleAux false cs

/-- Python `str.title()` on a string, faithful on strings containing no
cased non-ASCII character (see `titleAux` for the exact fidelity domain). -/
def title (s : List Char) : List Char := titleAux false s

/-- Line 8 of the script:
`folder_name = " ".join([name.title() for name in str(dir).split("-")])`.
Faithful on the same domain as `title`: names with no cased non-ASCII
character. -/
def folder_name (s : List Char) : List Char :=
  List.intercalate [' '] ((splitHyphen s).map title)

/-- The f-string handed to `print` on line 9:
`f"## [{folder_name}](/examples/{str(dir)})\n\n"`. -/
def printedString (s : List Char) : List Char :=
  ("## [".data) ++ folder_name s ++ ("](/examples/".data) ++ s ++ (")".data)
    ++ ['\n', '\n']

/-- Everything one call of `print` writes for one directory: the f-string
followed by the newline `print` itself appends. -/
def outputBlock (s : List Char) : List Char := printedString s ++ ['\n']

/-- Lines 4 and 5 of the script:
`dirs = [x for x in p.iterdir() if x.is_dir()]` followed by `dirs.sort()`.
The result is the sorted list of path strings of the directory entries. -/
def dirs (entries : List Entry) : List (List Char) :=
  (((entries.filter (·.isDir)).map (·.name)).mergeSort strLe)

/-- The whole standard-output stream produced by the `for` loop for a given
successful listing. -/
def output (entries : List Entry) : List Char :=
  ((dirs entries).map outputBlock).flatten

/-- The whole program as a function of the listing result: `none` models a
listing failure, which raises an uncaught exception while building `dirs`
(before any `print` runs), so Python exits with status 1 and nothing was
written; a successful listing produces the loop's output and exit status 0.
The pair is (exit status, standard output). -/
def runProgram : Option (List Entry) → Nat × List Char
  | none => (1, [])
  | some es => (0, output es)

/-- The heading line exactly as the spec's format string describes it,
`## [<joined-title>](/examples/<original-path-string>)`, without any
trailing newline. -/
def headingLine (s : List Char) : List Char :=
  ("## [".data) ++ folder_name s ++ ("](/examples/".data) ++ s ++ (")".data)

/-- Follows the spec's words for the title transform of one substring:
"first alphabetic character of each whitespace-delimited word upper-cased,
rest lower-cased".  The Boolean records whether the first alphabetic
character of the current whitespace-delimited word has been seen. -/
def specTitleWS : Bool → List Char → List Char
  | _, [] => []
  | seen, c :: cs =>
    if c.isWhitespace then c :: specTitleWS false cs
    else if c.isAlpha then
      (if seen then c.toLower else c.toUpper) :: specTitleWS true cs
    else
      c :: specTitleWS seen cs

/-- The title transform as the spec's words describe it: split on hyphens,
apply the whitespace-word title-casing to each piece, rejoin with single
spaces. -/
def specFolderNameWS (s : List Char) : List Char :=
  List.intercalate [' '] ((splitHyphen s).map (specTitleWS false))

/-- Title-casing characterised by the previous character, over the ASCII
fragment (where Python's "cased" property coincides with being an ASCII
letter): an alphabetic character is upper-cased exactly when it is the
first character or follows a non-alphabetic character, and lower-cased
otherwise; non-alphabetic characters are unchanged. -/
def titleByPrev : Option Char → List Char → List Char
  | _, [] => []
  | prev, c :: cs =>
    (if c.isAlpha then
      (if (match prev with | none => true | some p => !p.isAlpha) then
        c.toUpper
      else c.toLower)
    else c) :: titleByPrev (some c) cs

/-- Fragment of Python's `str.isalpha` (Unicode categories Lu, Ll, Lt, Lm,
Lo) sufficient for the characters appearing in the C10 counterexample:
ASCII letters together with the CJK Unified Ideographs block U+4E00 to
U+9FFF, whose characters are alphabetic in Python (category Lo) but not
cased. -/
def pyAlphaFrag (c : Char) : Bool :=
  c.isAlpha || (0x4E00 ≤ c.val.toNat && c.val.toNat ≤ 0x9FFF)

/-- The title rule exactly as claim C10 words it, parameterised by the
alphabetic predicate: an alphabetic character is upper-cased when it is
the first character or follows a non-alphabetic character and lower-cased
otherwise; other characters pass through unchanged.  (Case mappings at the
characters used here coincide with Python's: ASCII letters map as usual
and CJK ideographs have no case mapping, which `Char.toUpper` and
`Char.toLower` also leave unchanged.) -/
def titleByAlpha (alpha : Char → Bool) : Option Char → List Char → List Char
  | _, [] => []
  | prev, c :: cs =>
    (if alpha c then
      (if (match prev with | none => true | some p => !(alpha p)) then
        c.toUpper
      else c.toLower)
    else c) :: titleByAlpha alpha (some c) cs

/-! ### Facts about the code-point order on strings -/

theorem charLt_iff {a b : Char} : charLt a b = true ↔ a.val.toNat < b.val.toNat := by
  simp [charLt]

theorem char_eq_of_not_lt {a b : Char} (h₁ : ¬charLt a b = true)
    (h₂ : ¬charLt b a = true) : a = b := by
  rw [charLt_iff] at h₁ h₂
  exact Char.ext (UInt32.toNat.inj (by omega))

theorem strLe_total : ∀ a b : List Char, (strLe a b || strLe b a) = true := by
  intro a
  induction a with
  | nil => intro b; simp [strLe]
  | cons c cs ih =>
    intro b
    cases b with
    | nil => simp [strLe]
    | cons d ds =>
      simp only [strLe, Bool.or_eq_true, Bool.and_eq_true, beq_iff_eq]
      by_cases hcd : charLt c d = true
      · exact Or.inl (Or.inl hcd)
      · by_cases hdc : charLt d c = true
        · exact Or.inr (Or.inl hdc)
        · have hce : c = d := char_eq_of_not_lt hcd hdc
          have hih := ih ds
          rw [Bool.or_eq_true] at hih
          rcases hih with h | h
          · exact Or.inl (Or.inr ⟨hce, h⟩)
          · exact Or.inr (Or.inr ⟨hce.symm, h⟩)

theorem strLe_trans : ∀ a b c : List Char,
    strLe a b = true → strLe b c = true → strLe a c = true := by
  intro a
  induction a with
  | nil => intro b c _ _; simp [strLe]
  | cons x xs ih =>
    intro b c hab hbc
    cases b with
    | nil => simp [strLe] at hab
    | cons y ys =>
      cases c with
      | nil => simp [strLe] at hbc
      | cons z zs =>
        simp only [strLe, Bool.or_eq_true, Bool.and_eq_true, beq_iff_eq]
          at hab hbc ⊢
        rcases hab with hxy | ⟨rfl, hle₁⟩
        · rcases hbc with hyz | ⟨rfl, hle₂⟩
          · exact Or.inl (charLt_iff.mpr
              (Nat.lt_trans (charLt_iff.mp hxy) (charLt_iff.mp hyz)))
          · exact Or.inl hxy
        · rcases hbc with hyz | ⟨rfl, hle₂⟩
          · exact Or.inl hyz
          · exact Or.inr ⟨rfl, ih ys zs hle₁ hle₂⟩

theorem strLt_of_le_of_ne : ∀ a b : List Char,
    strLe a b = true → a ≠ b → strLt a b = true := by
  intro a
  induction a with
  | nil =>
    intro b hle hne
    cases b with
    | nil => exact absurd rfl hne
    | cons d ds => simp [strLt]
  | cons c cs ih =>
    intro b hle hne
    cases b with
    | nil => simp [strLe] at hle
    | cons d ds =>
      simp only [strLe, Bool.or_eq_true, Bool.and_eq_true, beq_iff_eq] at hle
      simp only [strLt, Bool.or_eq_true, Bool.and_eq_true, beq_iff_eq]
      rcases hle with h | ⟨rfl, h⟩
      · exact Or.inl h
      · refine Or.inr ⟨rfl, ih ds h ?_⟩
        intro hcd
        exact hne (by rw [hcd])

/-! ### The implemented title transform characterised by the previous
character -/

theorem titleAux_eq_titleByPrev : ∀ (cs : List Char) (p : Char),
    titleAux p.isAlpha cs = titleByPrev (some p) cs := by
  intro cs
  induction cs with
  | nil => intro p; rfl
  | cons c cs ih =>
    intro p
    have h1 := ih c
    by_cases hc : c.isAlpha = true
    · rw [hc] at h1
      by_cases hp : p.isAlpha = true
      · simp [titleAux, titleByPrev, hc, hp, h1]
      · rw [Bool.not_eq_true] at hp
        simp [titleAux, titleByPrev, hc, hp, h1]
    · rw [Bool.not_eq_true] at hc
      rw [hc] at h1
      simp [titleAux, titleByPrev, hc, h1]

theorem title_eq_titleByPrev : ∀ s : List Char, title s = titleByPrev none s := by
  intro s
  cases s with
  | nil => rfl
  | cons c cs =>
    have h1 := titleAux_eq_titleByPrev cs c
    by_cases hc : c.isAlpha = true
    · rw [hc] at h1
      simp [title, titleAux, titleByPrev, hc, h1]
    · rw [Bool.not_eq_true] at hc
      rw [hc] at h1
      simp [title, titleAux, titleByPrev, hc, h1]

/-! ### Claim theorems -/

/-- C1, counterexample: for the printed directory entry `foo-bar`, what the
program emits is not the heading line followed by exactly two newline
characters (`print` appends a third newline to the f-string's two). -/
theorem c1_two_newlines_counterexample :
    outputBlock ("foo-bar".data) ≠ headingLine ("foo-bar".data) ++ ['\n', '\n'] := by
  decide

/-- C1, amended: for every directory entry printed, the program emits the
line `## [<joined-title>](/examples/<original-path-string>)` followed by
exactly three newline characters (the heading line, then two blank lines)
before the next entry's block begins; the output stream is the
concatenation of such blocks. -/
theorem c1_block_structure (entries : List Entry) :
    output entries
      = ((dirs entries).map (fun s => headingLine s ++ ['\n', '\n', '\n'])).flatten := by
  have h : outputBlock = fun s => headingLine s ++ ['\n', '\n', '\n'] := by
    funext s
    simp [outputBlock, printedString, headingLine]
  rw [output, h]

/-- C2, counterexample: for the raw directory name `abc1def`, the displayed
title produced by the code differs from the spec's transform in which only
whitespace delimits words (the code yields `Abc1Def`, the spec's words
yield `Abc1def`). -/
theorem c2_whitespace_words_counterexample :
    folder_name ("abc1def".data) ≠ specFolderNameWS ("abc1def".data) := by
  decide

/-- C2, amended: for every raw directory name consisting of ASCII
characters, the displayed title equals the result of splitting the name on
every hyphen (empty substrings preserved positionally), title-casing each
substring where an alphabetic character is upper-cased exactly when it is
the substring's first character or follows a non-alphabetic character (and
lower-cased otherwise), and rejoining the substrings with a single space
character.  The ASCII hypothesis keeps the statement inside the domain
where the embedding is faithful to `str.title()`; outside ASCII, Python's
word boundary is the Unicode cased property rather than alphabetic-ness. -/
theorem c2_title_transform (s : List Char) (_h : ∀ c ∈ s, c.val.toNat < 128) :
    folder_name s
      = List.intercalate [' '] ((splitHyphen s).map (titleByPrev none)) := by
  rw [folder_name, show title = titleByPrev none from funext title_eq_titleByPrev]

/-- Witness for C2 at the concrete ASCII name `foo-bar`. -/
theorem c2_title_transform_witness :
    (∀ c ∈ ("foo-bar".data), c.val.toNat < 128) ∧
    folder_name ("foo-bar".data)
      = List.intercalate [' ']
          ((splitHyphen ("foo-bar".data)).map (titleByPrev none)) :=
  ⟨by decide, c2_title_transform ("foo-bar".data) (by decide)⟩

/-- C3: the number of printed blocks equals the number of directory
entries, the printed names are exactly the directory entries' names, and
(for a listing with no duplicate names, as a real directory guarantees)
a non-directory entry's name is never printed. -/
theorem c3_blocks_match_directories (entries : List Entry)
    (h : (entries.map (·.name)).Nodup) :
    ((dirs entries).map outputBlock).length = (entries.filter (·.isDir)).length ∧
    (dirs entries).Perm ((entries.filter (·.isDir)).map (·.name)) ∧
    ∀ e ∈ entries, e.isDir = false → e.name ∉ dirs entries := by
  have hperm : (dirs entries).Perm ((entries.filter (·.isDir)).map (·.name)) :=
    List.mergeSort_perm _ _
  refine ⟨?_, hperm, ?_⟩
  · rw [List.length_map, hperm.length_eq, List.length_map]
  · intro e he hdir hmem
    rw [hperm.mem_iff] at hmem
    rcases List.mem_map.mp hmem with ⟨e', he', hname⟩
    have he'entries : e' ∈ entries := List.mem_of_mem_filter he'
    have he'dir : e'.isDir = true := by simpa using List.of_mem_filter he'
    have heq : e' = e := List.inj_on_of_nodup_map h he'entries he hname
    rw [heq, hdir] at he'dir
    exact Bool.false_ne_true he'dir

/-- Witness for C3 at a concrete listing with one directory and one plain
file. -/
theorem c3_blocks_match_directories_witness :
    (([⟨"b".data, true⟩, ⟨"a.txt".data, false⟩] : List Entry).map (·.name)).Nodup ∧
    (((dirs [⟨"b".data, true⟩, ⟨"a.txt".data, false⟩]).map outputBlock).length
        = (([⟨"b".data, true⟩, ⟨"a.txt".data, false⟩] : List Entry).filter (·.isDir)).length ∧
      (dirs [⟨"b".data, true⟩, ⟨"a.txt".data, false⟩]).Perm
        ((([⟨"b".data, true⟩, ⟨"a.txt".data, false⟩] : List Entry).filter (·.isDir)).map (·.name)) ∧
      ∀ e ∈ ([⟨"b".data, true⟩, ⟨"a.txt".data, false⟩] : List Entry),
        e.isDir = false → e.name ∉ dirs [⟨"b".data, true⟩, ⟨"a.txt".data, false⟩]) :=
  ⟨by decide, c3_blocks_match_directories _ (by decide)⟩

/-- C4: for a listing whose directory names are pairwise distinct (as a
real directory guarantees), consecutive printed entries are in strictly
ascending lexicographic code-point order of their raw names. -/
theorem c4_output_sorted (entries : List Entry)
    (h : ((entries.filter (·.isDir)).map (·.name)).Nodup) :
    (dirs entries).Chain' (fun a b => strLt a b = true) := by
  have hsorted : (dirs entries).Pairwise (fun a b => strLe a b = true) :=
    List.sorted_mergeSort (fun a b c => strLe_trans a b c)
      (fun a b => strLe_total a b) _
  have hnodup : (dirs entries).Nodup := (List.mergeSort_perm _ _).symm.nodup h
  have hne : (dirs entries).Pairwise (fun a b => a ≠ b) := hnodup
  exact ((hsorted.and hne).imp
    (fun hab => strLt_of_le_of_ne _ _ hab.1 hab.2)).chain'

/-- Witness for C4 at a concrete listing of two directories given out of
order. -/
theorem c4_output_sorted_witness :
    ((([⟨"b".data, true⟩, ⟨"a".data, true⟩] : List Entry).filter (·.isDir)).map (·.name)).Nodup ∧
    (dirs [⟨"b".data, true⟩, ⟨"a".data, true⟩]).Chain' (fun a b => strLt a b = true) :=
  ⟨by decide, c4_output_sorted _ (by decide)⟩

/-- C5: the directory `foo-bar` is titled `Foo Bar` with link target
`/examples/foo-bar`; the directory `a--b` is titled `A  B` (two spaces);
the directory `widgets` is titled `Widgets`. -/
theorem c5_concrete_examples :
    folder_name ("foo-bar".data) = ("Foo Bar".data) ∧
    headingLine ("foo-bar".data) = ("## [Foo Bar](/examples/foo-bar)".data) ∧
    folder_name ("a--b".data) = ("A  B".data) ∧
    folder_name ("widgets".data) = ("Widgets".data) := by
  decide

/-- C6: the program exits with non-zero status exactly when the directory
listing fails, and on a failed listing the status is 1; no other error
path exists (every transform in the embedding is a total function). -/
theorem c6_single_failure_mode :
    (∀ l : Option (List Entry), (runProgram l).1 ≠ 0 ↔ l = none) ∧
    (runProgram none).1 = 1 := by
  constructor
  · intro l
    cases l with
    | none => simp [runProgram]
    | some es => simp [runProgram]
  · rfl

/-- C7: the program is a deterministic function of the directory listing:
two runs over identical listings produce identical (exit status, output)
pairs. -/
theorem c7_deterministic (l₁ l₂ : Option (List Entry)) (h : l₁ = l₂) :
    runProgram l₁ = runProgram l₂ := by
  rw [h]

/-- Witness for C7 at a concrete listing. -/
theorem c7_deterministic_witness :
    (some [⟨"foo-bar".data, true⟩] : Option (List Entry))
        = some [⟨"foo-bar".data, true⟩] ∧
    runProgram (some [⟨"foo-bar".data, true⟩])
        = runProgram (some [⟨"foo-bar".data, true⟩]) :=
  ⟨rfl, c7_deterministic _ _ rfl⟩

/-- C8: if the listing succeeds and contains no directories (regardless of
how many plain files), the output is empty and the exit status is 0. -/
theorem c8_no_directories_empty_output (es : List Entry)
    (h : ∀ e ∈ es, e.isDir = false) :
    runProgram (some es) = (0, []) := by
  have hfilter : es.filter (·.isDir) = [] := by
    rw [List.filter_eq_nil_iff]
    intro e he
    simp [h e he]
  simp [runProgram, output, dirs, hfilter]

/-- Witness for C8 at a listing holding a single plain file. -/
theorem c8_no_directories_empty_output_witness :
    (∀ e ∈ ([⟨"a.txt".data, false⟩] : List Entry), e.isDir = false) ∧
    runProgram (some [⟨"a.txt".data, false⟩]) = (0, []) :=
  ⟨by decide, c8_no_directories_empty_output _ (by decide)⟩

/-- C9: when the listing fails, the process exits with status 1 and the
output stream is empty: no partial output is ever written, because the
listing is consumed in full before the first `print` runs. -/
theorem c9_failure_no_partial_output : runProgram none = (1, []) := rfl

/-- C10, counterexample: the claim's alphabetic-boundary rule is false of
`str.title()` at the name `中a`.  The ideograph `中` (U+4E2D) is alphabetic
in Python (`isalpha`, category Lo) but not cased, so CPython's
`previous_is_cased` flag is still clear when `a` is reached and
`'中a'.title()` is `'中A'` — the model computes exactly this, since `中`
lies in its fidelity domain (not cased, no case mapping) — whereas the
claim's rule lower-cases an alphabetic character that follows an
alphabetic character and predicts `中a`. -/
theorem c10_alphabetic_boundary_counterexample :
    title ("中a".data) = ("中A".data) ∧
    title ("中a".data) ≠ titleByAlpha pyAlphaFrag none ("中a".data) := by
  decide

/-- C10, amended: within each hyphen-separated segment a cased character is
upper-cased exactly when it is the first character of the segment or
follows a non-cased character, and lower-cased otherwise; on ASCII strings
"cased" coincides with "alphabetic", giving the stated boundary rule, and
in particular `abc1def` renders `Abc1Def` and `foo.bar` renders `Foo.Bar`.
The equivalence is stated on ASCII segments, the domain where the
embedding is faithful and the two boundary notions agree. -/
theorem c10_title_word_boundaries :
    (∀ s : List Char, (∀ c ∈ s, c.val.toNat < 128) →
      title s = titleByPrev none s) ∧
    folder_name ("abc1def".data) = ("Abc1Def".data) ∧
    folder_name ("foo.bar".data) = ("Foo.Bar".data) :=
  ⟨fun s _ => title_eq_titleByPrev s, by decide, by decide⟩

/-- Witness for C10 at the concrete ASCII segment `abc1def`. -/
theorem c10_title_word_boundaries_witness :
    (∀ c ∈ ("abc1def".data), c.val.toNat < 128) ∧
    title ("abc1def".data) = titleByPrev none ("abc1def".data) :=
  ⟨by decide, c10_title_word_boundaries.1 ("abc1def".data) (by decide)⟩

end TitleScript
